import Mathlib

/-!
Shallow embedding of the Multi-Currency Wallet backend core:
the in-memory entity store (MemStorage, src/unnamed/part_000) and the
three ledger operations of src/server/routes.ts (POST /api/transfers,
POST /api/conversions, POST /api/deposits), plus the static exchange-rate
table. Monetary amounts and rates are modelled as rationals; the
JavaScript map of wallets keyed by id is modelled as a list of wallets
whose keys are the wallets' own `id` fields (MemStorage always stores a
wallet under its `id`). Each request handler becomes a function from a
storage state to the pair (state after the request, optional error); an
early-out error leaves the state untouched, exactly as the handlers
return before any write.
-/

namespace MultiCurrencyWallet

/-- Error taxonomy of the spec (§7), matching the HTTP statuses the
handlers produce: 404 NotFound, 403 Forbidden, 400 with a currency /
rate message InvalidOperation, 400 insufficient funds InsufficientFunds. -/
inductive OpError where
  | notFound
  | forbidden
  | invalidOperation
  | insufficientFunds
deriving DecidableEq, Repr

/-- A wallet row (shared/schema.ts `wallets`): identifier, owning user,
optional display name, currency code, balance, primary flag, creation
time (modelled as a natural-number timestamp). -/
structure Wallet where
  id : Nat
  userId : Nat
  name : Option String
  currency : String
  balance : ℚ
  isPrimary : Bool
  createdAt : Nat
deriving DecidableEq, Repr

/-- A ledger entry (shared/schema.ts `transactions`). -/
structure Transaction where
  id : Nat
  userId : Nat
  fromWalletId : Option Nat
  toWalletId : Option Nat
  type : String
  amount : ℚ
  fromCurrency : Option String
  toCurrency : Option String
  rate : Option ℚ
  description : String
  status : String
  createdAt : Nat
deriving DecidableEq, Repr

/-- The MemStorage state: the wallet map (as a list keyed by `Wallet.id`),
the transaction map (as a list, most recent first), the next transaction
identifier, and the current clock used for `createdAt` stamps. -/
structure Storage where
  wallets : List Wallet
  transactions : List Transaction
  transactionId : Nat
  now : Nat
deriving Repr

/-- MemStorage.getWallet: point lookup by identifier. -/
def getWallet (st : Storage) (id : Nat) : Option Wallet :=
  st.wallets.find? (fun w => w.id = id)

/-- MemStorage.updateWalletBalance: replace the stored wallet with a copy
whose balance is the given value; a missing wallet leaves the store
unchanged (the source returns undefined and writes nothing). -/
def updateWalletBalance (st : Storage) (id : Nat) (balance : ℚ) : Storage :=
  { st with
    wallets := st.wallets.map
      (fun w => if w.id = id then { w with balance := balance } else w) }

/-- MemStorage.createTransaction: assign the next identifier and the
current time, insert the record. The builder receives the assigned id
and timestamp. -/
def createTransaction (st : Storage) (mk : Nat → Nat → Transaction) : Storage :=
  { st with
    transactions := mk st.transactionId st.now :: st.transactions,
    transactionId := st.transactionId + 1 }

/-- MemStorage.getTransactions: the account's ledger entries sorted
descending by creation time; the JavaScript `limit ? slice(0, limit) :
all` truncates only when `limit` is present and nonzero (0 is falsy). -/
def getTransactions (st : Storage) (userId : Nat) (limit : Option Nat) :
    List Transaction :=
  let userTransactions :=
    (st.transactions.filter (fun t => t.userId = userId)).mergeSort
      (fun a b => decide (b.createdAt ≤ a.createdAt))
  match limit with
  | some l => if l ≠ 0 then userTransactions.take l else userTransactions
  | none => userTransactions

/-- The static exchange-rate table of routes.ts lines 22-26.
`exchangeRates[from]?.[to]` is `none` exactly when the ordered pair is
outside the table; every stored rate is nonzero, so the JavaScript
truthiness test `!rate` coincides with absence. -/
def exchangeRates (fromCurrency toCurrency : String) : Option ℚ :=
  if fromCurrency = "USD" then
    if toCurrency = "EUR" then some 0.915
    else if toCurrency = "GBP" then some 0.79
    else if toCurrency = "USD" then some 1
    else none
  else if fromCurrency = "EUR" then
    if toCurrency = "USD" then some 1.093
    else if toCurrency = "GBP" then some 0.863
    else if toCurrency = "EUR" then some 1
    else none
  else if fromCurrency = "GBP" then
    if toCurrency = "USD" then some 1.266
    else if toCurrency = "EUR" then some 1.159
    else if toCurrency = "GBP" then some 1
    else none
  else none

/-- The JavaScript `description || defaultText` default: both a missing
and an empty description fall back to the default. -/
def descriptionOrDefault (d : Option String) (dflt : String) : String :=
  match d with
  | some s => if s = "" then dflt else s
  | none => dflt

/-- The mutation performed by a successful transfer (routes.ts lines
340-360): debit write, credit write (in that order, so a self-transfer's
second write overwrites the first), ledger append. -/
def transferApply (st : Storage) (userId fromWalletId toWalletId : Nat)
    (amount : ℚ) (description : Option String)
    (fromWallet toWallet : Wallet) : Storage :=
  let fromBalance := fromWallet.balance - amount
  let toBalance := toWallet.balance + amount
  let st1 := updateWalletBalance st fromWalletId fromBalance
  let st2 := updateWalletBalance st1 toWalletId toBalance
  createTransaction st2 (fun id now =>
    { id := id
      userId := userId
      fromWalletId := some fromWalletId
      toWalletId := some toWalletId
      type := "transfer"
      amount := amount
      fromCurrency := some fromWallet.currency
      toCurrency := some toWallet.currency
      rate := none
      description := descriptionOrDefault description ("Transfer between wallets")
      status := "completed"
      createdAt := now })

/-- POST /api/transfers (routes.ts lines 302-372), after schema
validation: existence, ownership, currency equality and sufficiency
checks in source order, then the success mutation. Returns the state
after the request and the error, if any. -/
def transfer (st : Storage) (userId fromWalletId toWalletId : Nat)
    (amount : ℚ) (description : Option String) : Storage × Option OpError :=
  match getWallet st fromWalletId, getWallet st toWalletId with
  | some fromWallet, some toWallet =>
    if fromWallet.userId ≠ userId ∨ toWallet.userId ≠ userId then
      (st, some OpError.forbidden)
    else if fromWallet.currency ≠ toWallet.currency then
      (st, some OpError.invalidOperation)
    else if fromWallet.balance < amount then
      (st, some OpError.insufficientFunds)
    else
      (transferApply st userId fromWalletId toWalletId amount description
        fromWallet toWallet, none)
  | _, _ => (st, some OpError.notFound)

/-- The mutation performed by a successful conversion (routes.ts lines
413-437): debit write, credit of `amount * rate`, ledger append. -/
def convertApply (st : Storage) (userId fromWalletId toWalletId : Nat)
    (amount : ℚ) (rate : ℚ) (fromWallet toWallet : Wallet) : Storage :=
  let convertedAmount := amount * rate
  let st1 := updateWalletBalance st fromWalletId
    (fromWallet.balance - amount)
  let st2 := updateWalletBalance st1 toWalletId
    (toWallet.balance + convertedAmount)
  createTransaction st2 (fun id now =>
    { id := id
      userId := userId
      fromWalletId := some fromWalletId
      toWalletId := some toWalletId
      type := "conversion"
      amount := amount
      fromCurrency := some fromWallet.currency
      toCurrency := some toWallet.currency
      rate := some rate
      description := "Converted " ++ fromWallet.currency ++ " to "
        ++ toWallet.currency
      status := "completed"
      createdAt := now })

/-- POST /api/conversions (routes.ts lines 375-451), after schema
validation: existence, ownership, sufficiency, then rate lookup, then
the success mutation, all in source order. -/
def convert (st : Storage) (userId fromWalletId toWalletId : Nat)
    (amount : ℚ) : Storage × Option OpError :=
  match getWallet st fromWalletId, getWallet st toWalletId with
  | some fromWallet, some toWallet =>
    if fromWallet.userId ≠ userId ∨ toWallet.userId ≠ userId then
      (st, some OpError.forbidden)
    else if fromWallet.balance < amount then
      (st, some OpError.insufficientFunds)
    else
      match exchangeRates fromWallet.currency toWallet.currency with
      | none => (st, some OpError.invalidOperation)
      | some rate =>
        (convertApply st userId fromWalletId toWalletId amount rate
          fromWallet toWallet, none)
  | _, _ => (st, some OpError.notFound)

/-- The mutation performed by a successful deposit (routes.ts lines
479-494): credit write, ledger append with only the destination fields
set. -/
def depositApply (st : Storage) (userId walletId : Nat) (amount : ℚ)
    (wallet : Wallet) : Storage :=
  let newBalance := wallet.balance + amount
  let st1 := updateWalletBalance st walletId newBalance
  createTransaction st1 (fun id now =>
    { id := id
      userId := userId
      fromWalletId := none
      toWalletId := some walletId
      type := "deposit"
      amount := amount
      fromCurrency := none
      toCurrency := some wallet.currency
      rate := none
      description := "Added funds to wallet"
      status := "completed"
      createdAt := now })

/-- POST /api/deposits (routes.ts lines 454-505), after schema
validation: existence and ownership checks, then the success mutation. -/
def deposit (st : Storage) (userId walletId : Nat) (amount : ℚ) :
    Storage × Option OpError :=
  match getWallet st walletId with
  | none => (st, some OpError.notFound)
  | some wallet =>
    if wallet.userId ≠ userId then
      (st, some OpError.forbidden)
    else
      (depositApply st userId walletId amount wallet, none)

/-- The balance of the wallet stored under an identifier, when present. -/
def walletBalance? (st : Storage) (id : Nat) : Option ℚ :=
  (getWallet st id).map (fun w => w.balance)

/-- Every stored wallet balance is non-negative. -/
def allBalancesNonneg (st : Storage) : Prop :=
  ∀ w ∈ st.wallets, 0 ≤ w.balance

instance (st : Storage) : Decidable (allBalancesNonneg st) := by
  unfold allBalancesNonneg; infer_instance

/-- All wallet fields other than the balance agree. -/
def sameWalletFrame (w w' : Wallet) : Prop :=
  w'.id = w.id ∧ w'.userId = w.userId ∧ w'.name = w.name ∧
    w'.currency = w.currency ∧ w'.isPrimary = w.isPrimary ∧
    w'.createdAt = w.createdAt

instance (w w' : Wallet) : Decidable (sameWalletFrame w w') := by
  unfold sameWalletFrame; infer_instance

/-- The transfer failure cascade in the order the spec states it
(§4.2 Transfer, steps 1-4): existence, then ownership, then currency
equality, then sufficiency; `none` means the operation succeeds. This
definition follows the spec's words and is compared with the `transfer`
handler embedded from the source. -/
def transferErrorSpec (st : Storage) (userId fromWalletId toWalletId : Nat)
    (amount : ℚ) : Option OpError :=
  match getWallet st fromWalletId, getWallet st toWalletId with
  | some fromWallet, some toWallet =>
    if fromWallet.userId ≠ userId ∨ toWallet.userId ≠ userId then
      some OpError.forbidden
    else if fromWallet.currency ≠ toWallet.currency then
      some OpError.invalidOperation
    else if fromWallet.balance < amount then
      some OpError.insufficientFunds
    else
      none
  | _, _ => some OpError.notFound

/-- A wallet with only the operation-relevant fields varied. -/
def mkWallet (id userId : Nat) (currency : String) (balance : ℚ) : Wallet :=
  { id := id
    userId := userId
    name := none
    currency := currency
    balance := balance
    isPrimary := false
    createdAt := 0 }

/-- A fresh storage holding the given wallets and no ledger entries. -/
def mkStorage (ws : List Wallet) : Storage :=
  { wallets := ws
    transactions := []
    transactionId := 1
    now := 0 }

/-- Two same-owner USD wallets with balances 50 and 0. -/
def storageTwoUSD : Storage :=
  mkStorage [mkWallet 1 1 "USD" 50, mkWallet 2 1 "USD" 0]

/-- Two same-owner USD wallets with balances 10 and 0. -/
def storageLowUSD : Storage :=
  mkStorage [mkWallet 1 1 "USD" 10, mkWallet 2 1 "USD" 0]

/-- A single wallet owned by account 2; account 1 acts on it. -/
def storageForeign : Storage :=
  mkStorage [mkWallet 1 2 "USD" 50]

/-- A USD wallet with balance 100 and a EUR wallet with balance 0,
both owned by account 1. -/
def storageUsdEur : Storage :=
  mkStorage [mkWallet 1 1 "USD" 100, mkWallet 2 1 "EUR" 0]

/-- A USD wallet with balance 0 owned by account 1 and an empty ledger:
the deposit scenario of the spec (§8). -/
def storageDepositScenario : Storage :=
  mkStorage [mkWallet 1 1 "USD" 0]

/-- A ledger entry of account 1, used to populate sample stores. -/
def sampleEntry : Transaction :=
  { id := 1
    userId := 1
    fromWalletId := none
    toWalletId := some 1
    type := "deposit"
    amount := 5
    fromCurrency := none
    toCurrency := some ("USD")
    rate := none
    description := "Added funds to wallet"
    status := "completed"
    createdAt := 3 }

/-- A storage whose ledger holds exactly one entry of account 1. -/
def storageOneEntry : Storage :=
  { wallets := [mkWallet 1 1 "USD" 5]
    transactions := [sampleEntry]
    transactionId := 2
    now := 4 }

/-! ## Infrastructure lemmas -/

theorem getWallet_id {st : Storage} {i : Nat} {w : Wallet}
    (h : getWallet st i = some w) : w.id = i := by
  have := List.find?_some h
  simpa using this

theorem getWallet_mem {st : Storage} {i : Nat} {w : Wallet}
    (h : getWallet st i = some w) : w ∈ st.wallets :=
  List.mem_of_find?_eq_some h

theorem getWallet_updateWalletBalance (st : Storage) (i : Nat) (b : ℚ)
    (j : Nat) :
    getWallet (updateWalletBalance st i b) j =
      (getWallet st j).map
        (fun w => if w.id = i then { w with balance := b } else w) := by
  unfold getWallet updateWalletBalance
  rw [List.find?_map]
  have hp : ((fun w => decide (w.id = j)) ∘
      fun w => if w.id = i then { w with balance := b } else w) =
      (fun w : Wallet => decide (w.id = j)) := by
    funext w
    by_cases h : w.id = i <;> simp [h]
  rw [hp]

theorem wallets_createTransaction (st : Storage)
    (mk : Nat → Nat → Transaction) :
    (createTransaction st mk).wallets = st.wallets := rfl

theorem getWallet_createTransaction (st : Storage)
    (mk : Nat → Nat → Transaction) (j : Nat) :
    getWallet (createTransaction st mk) j = getWallet st j := rfl

theorem transactions_updateWalletBalance (st : Storage) (i : Nat) (b : ℚ) :
    (updateWalletBalance st i b).transactions = st.transactions := rfl

theorem transfer_eq_of_success_conditions
    {st : Storage} {u f t : Nat} {a : ℚ} {d : Option String}
    {wf wt : Wallet}
    (hf : getWallet st f = some wf) (ht : getWallet st t = some wt)
    (h1 : wf.userId = u) (h2 : wt.userId = u)
    (h3 : wf.currency = wt.currency) (h4 : ¬ wf.balance < a) :
    transfer st u f t a d = (transferApply st u f t a d wf wt, none) := by
  unfold transfer
  rw [hf, ht]
  simp [h1, h2, h3, h4]

theorem transfer_success_inversion
    {st : Storage} {u f t : Nat} {a : ℚ} {d : Option String}
    (hok : (transfer st u f t a d).2 = none) :
    ∃ wf wt, getWallet st f = some wf ∧ getWallet st t = some wt ∧
      wf.userId = u ∧ wt.userId = u ∧ wf.currency = wt.currency ∧
      ¬ wf.balance < a ∧
      transfer st u f t a d = (transferApply st u f t a d wf wt, none) := by
  cases hf : getWallet st f with
  | none => simp [transfer, hf] at hok
  | some wf =>
    cases ht : getWallet st t with
    | none => simp [transfer, hf, ht] at hok
    | some wt =>
      simp only [transfer, hf, ht] at hok
      split_ifs at hok with h1 h2 h3
      all_goals try simp at hok
      push_neg at h1
      exact ⟨wf, wt, rfl, rfl, h1.1, h1.2, not_not.mp h2, h3,
        transfer_eq_of_success_conditions hf ht h1.1 h1.2
          (not_not.mp h2) h3⟩

theorem convert_eq_of_success_conditions
    {st : Storage} {u f t : Nat} {a : ℚ} {wf wt : Wallet} {r : ℚ}
    (hf : getWallet st f = some wf) (ht : getWallet st t = some wt)
    (h1 : wf.userId = u) (h2 : wt.userId = u)
    (h4 : ¬ wf.balance < a)
    (hr : exchangeRates wf.currency wt.currency = some r) :
    convert st u f t a = (convertApply st u f t a r wf wt, none) := by
  unfold convert
  rw [hf, ht]
  simp [h1, h2, h4, hr]

theorem convert_success_inversion
    {st : Storage} {u f t : Nat} {a : ℚ}
    (hok : (convert st u f t a).2 = none) :
    ∃ wf wt r, getWallet st f = some wf ∧ getWallet st t = some wt ∧
      wf.userId = u ∧ wt.userId = u ∧ ¬ wf.balance < a ∧
      exchangeRates wf.currency wt.currency = some r ∧
      convert st u f t a = (convertApply st u f t a r wf wt, none) := by
  cases hf : getWallet st f with
  | none => simp [convert, hf] at hok
  | some wf =>
    cases ht : getWallet st t with
    | none => simp [convert, hf, ht] at hok
    | some wt =>
      simp only [convert, hf, ht] at hok
      split_ifs at hok with h1 h2
      cases hr : exchangeRates wf.currency wt.currency with
      | none => rw [hr] at hok; simp at hok
      | some r =>
        push_neg at h1
        exact ⟨wf, wt, r, rfl, rfl, h1.1, h1.2, h2, hr,
          convert_eq_of_success_conditions hf ht h1.1 h1.2 h2 hr⟩

theorem deposit_eq_of_success_conditions
    {st : Storage} {u i : Nat} {a : ℚ} {w : Wallet}
    (hw : getWallet st i = some w) (h1 : w.userId = u) :
    deposit st u i a = (depositApply st u i a w, none) := by
  unfold deposit
  rw [hw]
  simp [h1]

theorem deposit_success_inversion
    {st : Storage} {u i : Nat} {a : ℚ}
    (hok : (deposit st u i a).2 = none) :
    ∃ w, getWallet st i = some w ∧ w.userId = u ∧
      deposit st u i a = (depositApply st u i a w, none) := by
  cases hw : getWallet st i with
  | none => simp [deposit, hw] at hok
  | some w =>
    simp only [deposit, hw] at hok
    split_ifs at hok with h1
    all_goals try simp at hok
    exact ⟨w, rfl, not_not.mp h1,
      deposit_eq_of_success_conditions hw (not_not.mp h1)⟩

theorem getWallet_transferApply (st : Storage) (u f t : Nat) (a : ℚ)
    (d : Option String) (wf wt : Wallet) (j : Nat) :
    getWallet (transferApply st u f t a d wf wt) j =
      (getWallet st j).map (fun w =>
        let w1 := if w.id = f then { w with balance := wf.balance - a }
          else w
        if w1.id = t then { w1 with balance := wt.balance + a } else w1) := by
  unfold transferApply
  rw [getWallet_createTransaction, getWallet_updateWalletBalance,
    getWallet_updateWalletBalance, Option.map_map]
  rfl

theorem getWallet_convertApply (st : Storage) (u f t : Nat) (a r : ℚ)
    (wf wt : Wallet) (j : Nat) :
    getWallet (convertApply st u f t a r wf wt) j =
      (getWallet st j).map (fun w =>
        let w1 := if w.id = f then { w with balance := wf.balance - a }
          else w
        if w1.id = t then { w1 with balance := wt.balance + a * r }
          else w1) := by
  unfold convertApply
  rw [getWallet_createTransaction, getWallet_updateWalletBalance,
    getWallet_updateWalletBalance, Option.map_map]
  rfl

theorem getWallet_depositApply (st : Storage) (u i : Nat) (a : ℚ)
    (w0 : Wallet) (j : Nat) :
    getWallet (depositApply st u i a w0) j =
      (getWallet st j).map (fun w =>
        if w.id = i then { w with balance := w0.balance + a } else w) := by
  unfold depositApply
  rw [getWallet_createTransaction, getWallet_updateWalletBalance]

theorem wallets_transferApply (st : Storage) (u f t : Nat) (a : ℚ)
    (d : Option String) (wf wt : Wallet) :
    (transferApply st u f t a d wf wt).wallets =
      st.wallets.map (fun w =>
        let w1 := if w.id = f then { w with balance := wf.balance - a }
          else w
        if w1.id = t then { w1 with balance := wt.balance + a } else w1) := by
  unfold transferApply updateWalletBalance
  rw [wallets_createTransaction]
  simp [List.map_map]

theorem wallets_convertApply (st : Storage) (u f t : Nat) (a r : ℚ)
    (wf wt : Wallet) :
    (convertApply st u f t a r wf wt).wallets =
      st.wallets.map (fun w =>
        let w1 := if w.id = f then { w with balance := wf.balance - a }
          else w
        if w1.id = t then { w1 with balance := wt.balance + a * r }
          else w1) := by
  unfold convertApply updateWalletBalance
  rw [wallets_createTransaction]
  simp [List.map_map]

theorem wallets_depositApply (st : Storage) (u i : Nat) (a : ℚ)
    (w0 : Wallet) :
    (depositApply st u i a w0).wallets =
      st.wallets.map (fun w =>
        if w.id = i then { w with balance := w0.balance + a } else w) := by
  unfold depositApply updateWalletBalance
  rw [wallets_createTransaction]

theorem exchangeRates_pos {c1 c2 : String} {r : ℚ}
    (h : exchangeRates c1 c2 = some r) : 0 < r := by
  unfold exchangeRates at h
  split_ifs at h <;> simp_all <;> norm_num [h.symm]

/-! ## Claim theorems -/

/-- Claim C1: for every successful Transfer of amount `a` between two
(distinct) wallets of the same owner and the same currency, the sum of
the source wallet's balance and the destination wallet's balance after
the operation equals the sum of those two balances before it. -/
theorem C1_transfer_conservation
    {st : Storage} {u f t : Nat} {a : ℚ} {d : Option String}
    {wf wt : Wallet}
    (hft : f ≠ t)
    (hf : getWallet st f = some wf) (ht : getWallet st t = some wt)
    (hok : (transfer st u f t a d).2 = none) :
    ∃ bf bt,
      walletBalance? (transfer st u f t a d).1 f = some bf ∧
      walletBalance? (transfer st u f t a d).1 t = some bt ∧
      bf + bt = wf.balance + wt.balance := by
  obtain ⟨wf', wt', hf', ht', _, _, _, _, heq⟩ := transfer_success_inversion hok
  rw [hf] at hf'
  rw [ht] at ht'
  obtain rfl : wf = wf' := by injection hf'
  obtain rfl : wt = wt' := by injection ht'
  have hidf := getWallet_id hf
  have hidt := getWallet_id ht
  refine ⟨wf.balance - a, wt.balance + a, ?_, ?_, by ring⟩
  · rw [heq]
    unfold walletBalance?
    rw [getWallet_transferApply, hf]
    simp [hidf, hft]
  · rw [heq]
    unfold walletBalance?
    rw [getWallet_transferApply, ht]
    simp [hidt, Ne.symm hft]

/-- Concrete run of C1: transferring 30 between two USD wallets of
account 1 with balances 50 and 0 keeps the balance sum at 50. -/
theorem C1_transfer_conservation_witness :
    ∃ bf bt,
      walletBalance? (transfer storageTwoUSD 1 1 2 30 none).1 1 = some bf ∧
      walletBalance? (transfer storageTwoUSD 1 1 2 30 none).1 2 = some bt ∧
      bf + bt = (mkWallet 1 1 "USD" 50).balance +
        (mkWallet 2 1 "USD" 0).balance :=
  C1_transfer_conservation (by decide) rfl rfl (by decide)

/-- Claim C5: the transfer handler's reported error is decided by the
checks in spec order — missing wallet, then foreign wallet, then
currency mismatch, then insufficient balance — and the operation
succeeds exactly when no check fails. -/
theorem C5_transfer_validation_order (st : Storage) (u f t : Nat) (a : ℚ)
    (d : Option String) :
    (transfer st u f t a d).2 = transferErrorSpec st u f t a := by
  unfold transfer transferErrorSpec
  cases getWallet st f with
  | none => cases getWallet st t <;> rfl
  | some wf =>
    cases getWallet st t with
    | none => rfl
    | some wt =>
      dsimp only
      split_ifs <;> rfl

/-- Claim C10 (implicit): a self-transfer with sufficient balance
succeeds and the wallet's final balance is its initial balance plus the
amount — the credit write overwrites the debit write. -/
theorem C10_self_transfer_overwrite
    {st : Storage} {u f : Nat} {a : ℚ} {d : Option String} {w : Wallet}
    (hw : getWallet st f = some w) (hown : w.userId = u)
    (hbal : a ≤ w.balance) :
    (transfer st u f f a d).2 = none ∧
    walletBalance? (transfer st u f f a d).1 f = some (w.balance + a) := by
  have heq := @transfer_eq_of_success_conditions st u f f a d w w hw hw
    hown hown rfl (not_lt.mpr hbal)
  rw [heq]
  have hid := getWallet_id hw
  refine ⟨rfl, ?_⟩
  unfold walletBalance?
  rw [getWallet_transferApply, hw]
  simp [hid]

/-- Concrete run of C10: a self-transfer of 30 on a USD wallet with
balance 50 succeeds and leaves balance 80. -/
theorem C10_self_transfer_overwrite_witness :
    (transfer storageTwoUSD 1 1 1 30 none).2 = none ∧
    walletBalance? (transfer storageTwoUSD 1 1 1 30 none).1 1 =
      some ((mkWallet 1 1 "USD" 50).balance + 30) :=
  C10_self_transfer_overwrite rfl rfl (by decide)

/-- Claim C3 as stated is false on the code: in `storageForeign`,
wallet 1 exists and is owned by account 2, not the acting account 1,
yet a transfer that also references the missing wallet 99 fails with
NotFound — not Forbidden — because the existence check runs first. -/
theorem C3_ownership_counterexample :
    getWallet storageForeign 1 = some (mkWallet 1 2 "USD" 50) ∧
    (mkWallet 1 2 "USD" 50).userId ≠ 1 ∧
    getWallet storageForeign 99 = none ∧
    transfer storageForeign 1 99 1 5 none =
      (storageForeign, some OpError.notFound) ∧
    OpError.notFound ≠ OpError.forbidden :=
  ⟨rfl, by decide, rfl, rfl, by decide⟩

/-- Claim C3, amended: for every Transfer, Convert, or Deposit in which
every referenced wallet exists and some referenced wallet is not owned
by the acting account, the operation fails with Forbidden and the
storage — balances and ledger alike — is unchanged, regardless of the
amount or the balances involved. -/
theorem C3_ownership_enforcement :
    (∀ (st : Storage) (u f t : Nat) (a : ℚ) (d : Option String)
      (wf wt : Wallet), getWallet st f = some wf →
      getWallet st t = some wt → (wf.userId ≠ u ∨ wt.userId ≠ u) →
      transfer st u f t a d = (st, some OpError.forbidden)) ∧
    (∀ (st : Storage) (u f t : Nat) (a : ℚ) (wf wt : Wallet),
      getWallet st f = some wf → getWallet st t = some wt →
      (wf.userId ≠ u ∨ wt.userId ≠ u) →
      convert st u f t a = (st, some OpError.forbidden)) ∧
    (∀ (st : Storage) (u i : Nat) (a : ℚ) (w : Wallet),
      getWallet st i = some w → w.userId ≠ u →
      deposit st u i a = (st, some OpError.forbidden)) := by
  refine ⟨?_, ?_, ?_⟩
  · intro st u f t a d wf wt hf ht hown
    unfold transfer
    rw [hf, ht]
    simp [hown]
  · intro st u f t a wf wt hf ht hown
    unfold convert
    rw [hf, ht]
    simp [hown]
  · intro st u i a w hw hown
    unfold deposit
    rw [hw]
    simp [hown]

/-- Concrete run of the amended C3: account 1 depositing into wallet 1
of `storageForeign` (owned by account 2) is rejected with Forbidden and
the storage is unchanged. -/
theorem C3_ownership_enforcement_witness :
    deposit storageForeign 1 1 (25 : ℚ) =
      (storageForeign, some OpError.forbidden) :=
  C3_ownership_enforcement.2.2 storageForeign 1 1 25
    (mkWallet 1 2 "USD" 50) rfl (by decide)

/-- Claim C2: with a positive (schema-validated) amount, no successful
Transfer, Convert, or Deposit leaves any wallet balance negative; and a
Transfer or Convert whose amount exceeds the source balance, all checks
before the sufficiency check passing, fails with InsufficientFunds and
leaves the whole storage — balances and ledger — unchanged. -/
theorem C2_nonneg_and_insufficient_funds :
    (∀ (st : Storage) (u f t : Nat) (a : ℚ) (d : Option String),
      0 < a → allBalancesNonneg st → (transfer st u f t a d).2 = none →
      allBalancesNonneg (transfer st u f t a d).1) ∧
    (∀ (st : Storage) (u f t : Nat) (a : ℚ),
      0 < a → allBalancesNonneg st → (convert st u f t a).2 = none →
      allBalancesNonneg (convert st u f t a).1) ∧
    (∀ (st : Storage) (u i : Nat) (a : ℚ),
      0 < a → allBalancesNonneg st → (deposit st u i a).2 = none →
      allBalancesNonneg (deposit st u i a).1) ∧
    (∀ (st : Storage) (u f t : Nat) (a : ℚ) (d : Option String)
      (wf wt : Wallet), getWallet st f = some wf →
      getWallet st t = some wt → wf.userId = u → wt.userId = u →
      wf.currency = wt.currency → wf.balance < a →
      transfer st u f t a d = (st, some OpError.insufficientFunds)) ∧
    (∀ (st : Storage) (u f t : Nat) (a : ℚ) (wf wt : Wallet),
      getWallet st f = some wf → getWallet st t = some wt →
      wf.userId = u → wt.userId = u → wf.balance < a →
      convert st u f t a = (st, some OpError.insufficientFunds)) := by
  refine ⟨?_, ?_, ?_, ?_, ?_⟩
  · intro st u f t a d ha hnn hok
    obtain ⟨wf, wt, hf, ht, _, _, _, hbal, heq⟩ :=
      transfer_success_inversion hok
    rw [heq]
    unfold allBalancesNonneg
    intro w' hw'
    rw [wallets_transferApply] at hw'
    simp only [List.mem_map] at hw'
    obtain ⟨w, hwmem, rfl⟩ := hw'
    have hw0 := hnn w hwmem
    have hwt := hnn wt (getWallet_mem ht)
    have hba := not_lt.mp hbal
    by_cases h1 : w.id = f <;> by_cases h2 : w.id = t <;>
      simp [h1, h2] <;>
      first
        | linarith
        | (split_ifs <;> simp <;> linarith)
  · intro st u f t a ha hnn hok
    obtain ⟨wf, wt, r, hf, ht, _, _, hbal, hr, heq⟩ :=
      convert_success_inversion hok
    rw [heq]
    unfold allBalancesNonneg
    intro w' hw'
    rw [wallets_convertApply] at hw'
    simp only [List.mem_map] at hw'
    obtain ⟨w, hwmem, rfl⟩ := hw'
    have hw0 := hnn w hwmem
    have hwt := hnn wt (getWallet_mem ht)
    have hba := not_lt.mp hbal
    have har := mul_pos ha (exchangeRates_pos hr)
    by_cases h1 : w.id = f <;> by_cases h2 : w.id = t <;>
      simp [h1, h2] <;>
      first
        | linarith
        | (split_ifs <;> simp <;> linarith)
  · intro st u i a ha hnn hok
    obtain ⟨w0, hw0look, _, heq⟩ := deposit_success_inversion hok
    rw [heq]
    unfold allBalancesNonneg
    intro w' hw'
    rw [wallets_depositApply] at hw'
    simp only [List.mem_map] at hw'
    obtain ⟨w, hwmem, rfl⟩ := hw'
    have hw0 := hnn w hwmem
    have hw0b := hnn w0 (getWallet_mem hw0look)
    by_cases h1 : w.id = i <;> simp [h1] <;> linarith
  · intro st u f t a d wf wt hf ht h1 h2 h3 hlt
    unfold transfer
    rw [hf, ht]
    simp [h1, h2, h3, hlt]
  · intro st u f t a wf wt hf ht h1 h2 hlt
    unfold convert
    rw [hf, ht]
    simp [h1, h2, hlt]

/-- Concrete run of C2: transferring 30 out of a USD wallet holding 10
fails with InsufficientFunds and leaves the storage unchanged. -/
theorem C2_insufficient_funds_witness :
    transfer storageLowUSD 1 1 2 30 none =
      (storageLowUSD, some OpError.insufficientFunds) :=
  C2_nonneg_and_insufficient_funds.2.2.2.1 storageLowUSD 1 1 2 30 none
    (mkWallet 1 1 "USD" 10) (mkWallet 2 1 "USD" 0) rfl rfl rfl rfl rfl
    (by decide)

/-- Claim C4: every successful Transfer, Convert, or Deposit appends
exactly one ledger entry whose kind, amount, and currency fields match
the operation's effect; depositing 50 into a USD wallet with balance 0
yields balance 50 and exactly one entry of kind deposit, amount 50,
destination currency USD, with no source currency and no rate. -/
theorem C4_ledger_completeness :
    (∀ (st : Storage) (u f t : Nat) (a : ℚ) (d : Option String)
      (wf wt : Wallet), getWallet st f = some wf →
      getWallet st t = some wt → (transfer st u f t a d).2 = none →
      ∃ e, (transfer st u f t a d).1.transactions = e :: st.transactions ∧
        e.type = "transfer" ∧ e.amount = a ∧
        e.fromCurrency = some wf.currency ∧
        e.toCurrency = some wt.currency ∧ e.fromWalletId = some f ∧
        e.toWalletId = some t ∧ e.rate = none ∧
        e.status = "completed") ∧
    (∀ (st : Storage) (u f t : Nat) (a : ℚ) (wf wt : Wallet) (r : ℚ),
      getWallet st f = some wf → getWallet st t = some wt →
      exchangeRates wf.currency wt.currency = some r →
      (convert st u f t a).2 = none →
      ∃ e, (convert st u f t a).1.transactions = e :: st.transactions ∧
        e.type = "conversion" ∧ e.amount = a ∧
        e.fromCurrency = some wf.currency ∧
        e.toCurrency = some wt.currency ∧ e.rate = some r ∧
        e.status = "completed") ∧
    (∀ (st : Storage) (u i : Nat) (a : ℚ) (w : Wallet),
      getWallet st i = some w → (deposit st u i a).2 = none →
      ∃ e, (deposit st u i a).1.transactions = e :: st.transactions ∧
        e.type = "deposit" ∧ e.amount = a ∧ e.fromCurrency = none ∧
        e.toCurrency = some w.currency ∧ e.fromWalletId = none ∧
        e.toWalletId = some i ∧ e.rate = none ∧
        e.status = "completed") ∧
    ((deposit storageDepositScenario 1 1 50).2 = none ∧
      walletBalance? (deposit storageDepositScenario 1 1 50).1 1 =
        some 50 ∧
      ∃ e, (deposit storageDepositScenario 1 1 50).1.transactions = [e] ∧
        e.type = "deposit" ∧ e.amount = 50 ∧ e.toCurrency = some ("USD") ∧
        e.fromCurrency = none ∧ e.rate = none) := by
  refine ⟨?_, ?_, ?_, ?_⟩
  · intro st u f t a d wf wt hf ht hok
    obtain ⟨wf', wt', hf', ht', _, _, _, _, heq⟩ :=
      transfer_success_inversion hok
    rw [hf] at hf'
    rw [ht] at ht'
    obtain rfl : wf = wf' := by injection hf'
    obtain rfl : wt = wt' := by injection ht'
    rw [heq]
    exact ⟨_, rfl, rfl, rfl, rfl, rfl, rfl, rfl, rfl, rfl⟩
  · intro st u f t a wf wt r hf ht hr hok
    obtain ⟨wf', wt', r', hf', ht', _, _, _, hr', heq⟩ :=
      convert_success_inversion hok
    rw [hf] at hf'
    rw [ht] at ht'
    obtain rfl : wf = wf' := by injection hf'
    obtain rfl : wt = wt' := by injection ht'
    rw [hr] at hr'
    obtain rfl : r = r' := by injection hr'
    rw [heq]
    exact ⟨_, rfl, rfl, rfl, rfl, rfl, rfl, rfl⟩
  · intro st u i a w hw hok
    obtain ⟨w', hw', _, heq⟩ := deposit_success_inversion hok
    rw [hw] at hw'
    obtain rfl : w = w' := by injection hw'
    rw [heq]
    exact ⟨_, rfl, rfl, rfl, rfl, rfl, rfl, rfl, rfl, rfl⟩
  · have heq := @deposit_eq_of_success_conditions storageDepositScenario
      1 1 50 (mkWallet 1 1 "USD" 0) rfl rfl
    refine ⟨rfl, ?_, ?_⟩
    · unfold walletBalance?
      rw [heq, getWallet_depositApply]
      norm_num [storageDepositScenario, mkStorage, mkWallet, getWallet]
    · rw [heq]
      exact ⟨_, rfl, rfl, rfl, rfl, rfl, rfl⟩

/-- Concrete run of C4: the deposit part applied to a deposit of 25
into wallet 1 of `storageTwoUSD` appends exactly one matching entry. -/
theorem C4_ledger_completeness_witness :
    ∃ e, (deposit storageTwoUSD 1 1 25).1.transactions =
        e :: storageTwoUSD.transactions ∧
      e.type = "deposit" ∧ e.amount = 25 ∧ e.fromCurrency = none ∧
      e.toCurrency = some (mkWallet 1 1 "USD" 50).currency ∧
      e.fromWalletId = none ∧ e.toWalletId = some 1 ∧ e.rate = none ∧
      e.status = "completed" :=
  C4_ledger_completeness.2.2.1 storageTwoUSD 1 1 25
    (mkWallet 1 1 "USD" 50) rfl rfl

/-- Claim C6: for a Convert between existing, owned wallets with
sufficient balance, the operation fails with InvalidOperation exactly
when the ordered currency pair is outside the rate table, and succeeds
exactly when it is inside; the table's domain is exactly
{USD, EUR, GBP} × {USD, EUR, GBP}, with every identity pair at rate 1. -/
theorem C6_rate_availability :
    (∀ (st : Storage) (u f t : Nat) (a : ℚ) (wf wt : Wallet),
      getWallet st f = some wf → getWallet st t = some wt →
      wf.userId = u → wt.userId = u → ¬ wf.balance < a →
      (((convert st u f t a).2 = some OpError.invalidOperation) ↔
        exchangeRates wf.currency wt.currency = none) ∧
      ((convert st u f t a).2 = none ↔
        (exchangeRates wf.currency wt.currency).isSome = true)) ∧
    (∀ c1 c2 : String, (exchangeRates c1 c2).isSome = true ↔
      ((c1 = "USD" ∨ c1 = "EUR" ∨ c1 = "GBP") ∧
       (c2 = "USD" ∨ c2 = "EUR" ∨ c2 = "GBP"))) ∧
    (∀ c : String, (c = "USD" ∨ c = "EUR" ∨ c = "GBP") →
      exchangeRates c c = some 1) := by
  refine ⟨?_, ?_, ?_⟩
  · intro st u f t a wf wt hf ht h1 h2 h4
    cases hr : exchangeRates wf.currency wt.currency with
    | none =>
      have heqc : convert st u f t a = (st, some OpError.invalidOperation) := by
        unfold convert
        rw [hf, ht]
        simp [h1, h2, h4, hr]
      rw [heqc]
      simp
    | some r =>
      have heqc := convert_eq_of_success_conditions hf ht h1 h2 h4 hr
      rw [heqc]
      simp
  · intro c1 c2
    unfold exchangeRates
    split_ifs <;> simp_all
  · intro c hc
    rcases hc with rfl | rfl | rfl <;> rfl

/-- Concrete run of C6: inside `storageUsdEur`, converting 100 between
the USD and EUR wallets is governed exactly by presence of the
(USD, EUR) pair in the rate table. -/
theorem C6_rate_availability_witness :
    (((convert storageUsdEur 1 1 2 100).2 =
        some OpError.invalidOperation) ↔
      exchangeRates (mkWallet 1 1 "USD" 100).currency
        (mkWallet 2 1 "EUR" 0).currency = none) ∧
    ((convert storageUsdEur 1 1 2 100).2 = none ↔
      (exchangeRates (mkWallet 1 1 "USD" 100).currency
        (mkWallet 2 1 "EUR" 0).currency).isSome = true) :=
  C6_rate_availability.1 storageUsdEur 1 1 2 100
    (mkWallet 1 1 "USD" 100) (mkWallet 2 1 "EUR" 0) rfl rfl rfl rfl
    (by decide)

/-- Claim C7: conversion is a pure function of the state and inputs,
and a successful Convert between distinct wallets debits the source by
exactly the amount and credits the destination by exactly
`amount * rate`; concretely, converting 100 from the USD wallet to the
EUR wallet at the table rate 0.915 leaves balances 0 and 91.5. -/
theorem C7_convert_rate_determinism :
    (∀ (st : Storage) (u f t : Nat) (a : ℚ) (wf wt : Wallet), f ≠ t →
      getWallet st f = some wf → getWallet st t = some wt →
      (convert st u f t a).2 = none →
      ∃ r, exchangeRates wf.currency wt.currency = some r ∧
        walletBalance? (convert st u f t a).1 f = some (wf.balance - a) ∧
        walletBalance? (convert st u f t a).1 t =
          some (wt.balance + a * r)) ∧
    (exchangeRates ("USD") ("EUR") = some 0.915 ∧
      (convert storageUsdEur 1 1 2 100).2 = none ∧
      walletBalance? (convert storageUsdEur 1 1 2 100).1 1 = some 0 ∧
      walletBalance? (convert storageUsdEur 1 1 2 100).1 2 =
        some 91.5) := by
  constructor
  · intro st u f t a wf wt hft hf ht hok
    obtain ⟨wf', wt', r, hf', ht', _, _, _, hr, heq⟩ :=
      convert_success_inversion hok
    rw [hf] at hf'
    rw [ht] at ht'
    obtain rfl : wf = wf' := by injection hf'
    obtain rfl : wt = wt' := by injection ht'
    have hidf := getWallet_id hf
    have hidt := getWallet_id ht
    refine ⟨r, hr, ?_, ?_⟩
    · rw [heq]
      unfold walletBalance?
      rw [getWallet_convertApply, hf]
      simp [hidf, hft]
    · rw [heq]
      unfold walletBalance?
      rw [getWallet_convertApply, ht]
      simp [hidt, Ne.symm hft]
  · have hr : exchangeRates ("USD") ("EUR") = some 0.915 := rfl
    have heqc := @convert_eq_of_success_conditions storageUsdEur 1 1 2 100
      (mkWallet 1 1 "USD" 100) (mkWallet 2 1 "EUR" 0) 0.915 rfl rfl rfl rfl
      (by decide) hr
    refine ⟨hr, ?_, ?_, ?_⟩
    · rw [heqc]
    · unfold walletBalance?
      rw [heqc, getWallet_convertApply]
      norm_num [storageUsdEur, mkStorage, mkWallet, getWallet]
    · unfold walletBalance?
      rw [heqc, getWallet_convertApply]
      norm_num [storageUsdEur, mkStorage, mkWallet, getWallet]

/-- Concrete run of C7: converting 100 from the USD wallet (balance
100) to the EUR wallet (balance 0) of `storageUsdEur` debits 100 and
credits 100 times the table rate. -/
theorem C7_convert_rate_determinism_witness :
    ∃ r, exchangeRates (mkWallet 1 1 "USD" 100).currency
        (mkWallet 2 1 "EUR" 0).currency = some r ∧
      walletBalance? (convert storageUsdEur 1 1 2 100).1 1 =
        some ((mkWallet 1 1 "USD" 100).balance - 100) ∧
      walletBalance? (convert storageUsdEur 1 1 2 100).1 2 =
        some ((mkWallet 2 1 "EUR" 0).balance + 100 * r) :=
  C7_convert_rate_determinism.1 storageUsdEur 1 1 2 100
    (mkWallet 1 1 "USD" 100) (mkWallet 2 1 "EUR" 0) (by decide) rfl rfl
    (by decide)

theorem transfer_fst_cases (st : Storage) (u f t : Nat) (a : ℚ)
    (d : Option String) :
    (transfer st u f t a d).1 = st ∨
    ∃ wf wt, (transfer st u f t a d).1 =
      transferApply st u f t a d wf wt := by
  unfold transfer
  cases getWallet st f with
  | none => cases getWallet st t <;> exact Or.inl rfl
  | some wf =>
    cases getWallet st t with
    | none => exact Or.inl rfl
    | some wt =>
      dsimp only
      split_ifs <;>
        first
          | exact Or.inl rfl
          | exact Or.inr ⟨wf, wt, rfl⟩

theorem convert_fst_cases (st : Storage) (u f t : Nat) (a : ℚ) :
    (convert st u f t a).1 = st ∨
    ∃ wf wt r, (convert st u f t a).1 =
      convertApply st u f t a r wf wt := by
  unfold convert
  cases getWallet st f with
  | none => cases getWallet st t <;> exact Or.inl rfl
  | some wf =>
    cases getWallet st t with
    | none => exact Or.inl rfl
    | some wt =>
      dsimp only
      split_ifs
      · exact Or.inl rfl
      · exact Or.inl rfl
      · cases exchangeRates wf.currency wt.currency with
        | none => exact Or.inl rfl
        | some r => exact Or.inr ⟨wf, wt, r, rfl⟩

theorem deposit_fst_cases (st : Storage) (u i : Nat) (a : ℚ) :
    (deposit st u i a).1 = st ∨
    ∃ w, (deposit st u i a).1 = depositApply st u i a w := by
  unfold deposit
  cases getWallet st i with
  | none => exact Or.inl rfl
  | some w =>
    dsimp only
    split_ifs
    · exact Or.inl rfl
    · exact Or.inr ⟨w, rfl⟩

/-- Claim C9: every operation that touches a wallet — the raw balance
write and the three ledger operations, whether they succeed or fail —
preserves every wallet field other than the balance: identifier, owner,
name, currency, primary flag, and creation time. -/
theorem C9_wallet_frame_invariance :
    (∀ (st : Storage) (i : Nat) (b : ℚ) (j : Nat) (w w' : Wallet),
      getWallet st j = some w →
      getWallet (updateWalletBalance st i b) j = some w' →
      sameWalletFrame w w') ∧
    (∀ (st : Storage) (u f t : Nat) (a : ℚ) (d : Option String)
      (j : Nat) (w w' : Wallet), getWallet st j = some w →
      getWallet (transfer st u f t a d).1 j = some w' →
      sameWalletFrame w w') ∧
    (∀ (st : Storage) (u f t : Nat) (a : ℚ) (j : Nat) (w w' : Wallet),
      getWallet st j = some w →
      getWallet (convert st u f t a).1 j = some w' →
      sameWalletFrame w w') ∧
    (∀ (st : Storage) (u i : Nat) (a : ℚ) (j : Nat) (w w' : Wallet),
      getWallet st j = some w →
      getWallet (deposit st u i a).1 j = some w' →
      sameWalletFrame w w') := by
  refine ⟨?_, ?_, ?_, ?_⟩
  · intro st i b j w w' hw hw'
    rw [getWallet_updateWalletBalance, hw, Option.map_some'] at hw'
    injection hw' with hw'
    subst hw'
    by_cases h : w.id = i <;> simp [sameWalletFrame, h]
  · intro st u f t a d j w w' hw hw'
    rcases transfer_fst_cases st u f t a d with hcase | ⟨wf, wt, hcase⟩
    · rw [hcase, hw] at hw'
      injection hw' with hw'
      subst hw'
      exact ⟨rfl, rfl, rfl, rfl, rfl, rfl⟩
    · rw [hcase, getWallet_transferApply, hw, Option.map_some'] at hw'
      injection hw' with hw'
      subst hw'
      by_cases h1 : w.id = f <;> by_cases h2 : w.id = t <;>
        simp [sameWalletFrame, h1, h2] <;> split_ifs <;> simp [h1, h2]
  · intro st u f t a j w w' hw hw'
    rcases convert_fst_cases st u f t a with hcase | ⟨wf, wt, r, hcase⟩
    · rw [hcase, hw] at hw'
      injection hw' with hw'
      subst hw'
      exact ⟨rfl, rfl, rfl, rfl, rfl, rfl⟩
    · rw [hcase, getWallet_convertApply, hw, Option.map_some'] at hw'
      injection hw' with hw'
      subst hw'
      by_cases h1 : w.id = f <;> by_cases h2 : w.id = t <;>
        simp [sameWalletFrame, h1, h2] <;> split_ifs <;> simp [h1, h2]
  · intro st u i a j w w' hw hw'
    rcases deposit_fst_cases st u i a with hcase | ⟨w0, hcase⟩
    · rw [hcase, hw] at hw'
      injection hw' with hw'
      subst hw'
      exact ⟨rfl, rfl, rfl, rfl, rfl, rfl⟩
    · rw [hcase, getWallet_depositApply, hw, Option.map_some'] at hw'
      injection hw' with hw'
      subst hw'
      by_cases h1 : w.id = i <;> simp [sameWalletFrame, h1]

/-- Concrete run of C9: writing balance 7 over the USD wallet of
account 1 keeps every other field: the stored wallet becomes the same
wallet with balance 7. -/
theorem C9_wallet_frame_invariance_witness :
    sameWalletFrame (mkWallet 1 1 "USD" 50) (mkWallet 1 1 "USD" 7) :=
  C9_wallet_frame_invariance.1 storageTwoUSD 1 7 1
    (mkWallet 1 1 "USD" 50) (mkWallet 1 1 "USD" 7) rfl rfl

/-- Claim C8 as stated is false on the code: with a limit of 0 the
JavaScript truthiness test `limit ? ... : ...` skips truncation, so the
listing for account 1 in `storageOneEntry` returns its one entry — more
than 0 entries. -/
theorem C8_limit_zero_counterexample :
    getTransactions storageOneEntry 1 (some 0) = [sampleEntry] ∧
    ¬ (getTransactions storageOneEntry 1 (some 0)).length ≤ 0 := by
  have h : getTransactions storageOneEntry 1 (some 0) = [sampleEntry] := by
    simp [getTransactions, storageOneEntry, sampleEntry]
  exact ⟨h, by rw [h]; decide⟩

/-- Claim C8, amended: the account listing is always sorted descending
by creation time; a nonzero limit truncates to at most that many
entries; with no limit — or a limit of 0, which the code treats as
absent — every one of the account's entries is returned (as a
permutation of the filtered ledger). -/
theorem C8_ledger_listing_order :
    ∀ (st : Storage) (u : Nat) (lim : Option Nat),
      List.Pairwise (fun x y : Transaction => y.createdAt ≤ x.createdAt)
        (getTransactions st u lim) ∧
      (∀ l, lim = some l → l ≠ 0 →
        (getTransactions st u lim).length ≤ l) ∧
      ((lim = none ∨ lim = some 0) →
        List.Perm (getTransactions st u lim)
          (st.transactions.filter (fun e => e.userId = u))) := by
  intro st u lim
  have htrans : ∀ a b c : Transaction,
      (decide (b.createdAt ≤ a.createdAt)) = true →
      (decide (c.createdAt ≤ b.createdAt)) = true →
      (decide (c.createdAt ≤ a.createdAt)) = true := by
    intro a b c h1 h2
    simp only [decide_eq_true_eq] at h1 h2 ⊢
    omega
  have htotal : ∀ a b : Transaction,
      ((decide (b.createdAt ≤ a.createdAt)) ||
        (decide (a.createdAt ≤ b.createdAt))) = true := by
    intro a b
    rcases Nat.le_total b.createdAt a.createdAt with h | h <;> simp [h]
  have hsorted := List.sorted_mergeSort htrans htotal
    (st.transactions.filter (fun e => e.userId = u))
  have hsorted' : List.Pairwise
      (fun x y : Transaction => y.createdAt ≤ x.createdAt)
      ((st.transactions.filter (fun e => e.userId = u)).mergeSort
        (fun a b => decide (b.createdAt ≤ a.createdAt))) := by
    refine hsorted.imp ?_
    intro a b h
    simpa using h
  have hperm := List.mergeSort_perm
    (st.transactions.filter (fun e => e.userId = u))
    (fun a b => decide (b.createdAt ≤ a.createdAt))
  refine ⟨?_, ?_, ?_⟩
  · cases lim with
    | none => exact hsorted'
    | some l =>
      simp only [getTransactions]
      split_ifs
      · exact List.Pairwise.sublist (List.take_sublist _ _) hsorted'
      · exact hsorted'
  · intro l hl hlne
    subst hl
    simp only [getTransactions]
    rw [if_pos hlne]
    exact List.length_take_le l _
  · intro hcase
    rcases hcase with rfl | rfl
    · exact hperm
    · simp only [getTransactions]
      rw [if_neg (by simp)]
      exact hperm

/-- Concrete run of the amended C8: listing account 1's single-entry
ledger with limit 2 returns at most 2 entries. -/
theorem C8_ledger_listing_order_witness :
    (getTransactions storageOneEntry 1 (some 2)).length ≤ 2 :=
  (C8_ledger_listing_order storageOneEntry 1 (some 2)).2.1 2 rfl
    (by decide)

end MultiCurrencyWallet
